import Mathlib

/-!
# stai-bouncer: command-line resolution (`bouncer/cli.go`)

A shallow embedding of `defaultStaiExecutable`, `enforceExists` and `RunCli`.

Modelling conventions.

* Go strings are Lean `String`s (sequences of Unicode code points).
* A Go `error` value is described by its message and by whether `os.IsNotExist`
  holds for it; `nil` is `none`.
* A Go `float64` is stored, never computed with: it is kept as its IEEE-754 bit
  pattern, the zero value being `+0.0`.
* The package variables `getUserHomeDir`, `enforceStaiExecutable` and
  `getFileInfo` are fields of `Env`; a nil function value is `none`, and calling
  it panics.
* A run-time panic (nil function call, method call on a nil interface) is the
  `Outcome.panic` result.
* The third-party command-line library (`github.com/urfave/cli/v2`) is not part
  of the package. What it hands to the `Action` closure is the `CommandLine`
  record: the flag values it wrote to the `Destination` variables and the
  positional tokens.
* How the library gets from the argument vector to that record is modelled in
  the section on the argument vector, after `flag.FlagSet.Parse` of the Go
  standard library and the flags, and the `EnableBashCompletion` setting, that
  `RunCli` gives to the `App`; `strconv.ParseFloat` and `strconv.Quote` are taken
  as given.
-/

namespace Bouncer

/-! ## Go runtime values -/

/-- Result of a Go call that either returns a value or panics. -/
inductive Outcome (α : Type) where
  | ret (a : α)
  | panic
  deriving DecidableEq, Repr

/-- A non-nil Go `error`: its `Error()` text and whether `os.IsNotExist` accepts it. -/
structure GoError where
  msg : String
  notExist : Bool
  deriving DecidableEq, Repr

/-- Go `errors.New`: a plain error carrying only a message. -/
def errorsNew (msg : String) : GoError := { msg := msg, notExist := false }

/-- Go `os.IsNotExist`; it is false on the nil error. -/
def osIsNotExist : Option GoError → Bool
  | none => false
  | some err => err.notExist

/-- A Go `float64`, as its bit pattern. -/
structure Float64 where
  bits : Nat
  deriving DecidableEq, Repr

/-- The zero value of `float64` (`0.0`). -/
def Float64.zero : Float64 := { bits := 0 }

/-- The part of `os.FileInfo` that the package reads. -/
structure FileInfo where
  isDir : Bool
  deriving DecidableEq, Repr

/-! ## `strings` and `unicode` -/

/-- Go `unicode.IsSpace`: the Latin-1 cases, then the `White_Space` range table. -/
def IsSpace (r : Char) : Bool :=
  let n := r.toNat
  if n ≤ 0xFF then
    n == 0x09 || n == 0x0A || n == 0x0B || n == 0x0C || n == 0x0D || n == 0x20
      || n == 0x85 || n == 0xA0
  else
    n == 0x1680 || (0x2000 ≤ n && n ≤ 0x200A) || n == 0x2028 || n == 0x2029
      || n == 0x202F || n == 0x205F || n == 0x3000

/-- Go `strings.TrimLeftFunc` on the code points of a string. -/
def TrimLeftFunc (s : List Char) (f : Char → Bool) : List Char :=
  s.dropWhile f

/-- Go `strings.TrimRightFunc` on the code points of a string. -/
def TrimRightFunc (s : List Char) (f : Char → Bool) : List Char :=
  (s.reverse.dropWhile f).reverse

/-- Go `strings.TrimSpace`: `TrimFunc(s, unicode.IsSpace)`. -/
def TrimSpace (s : String) : String :=
  String.mk (TrimRightFunc (TrimLeftFunc s.data IsSpace) IsSpace)

/-- Go `strings.Join`. -/
def Join : List String → String → String
  | [], _ => ""
  | [a], _ => a
  | a :: b :: rest, sep => a ++ sep ++ Join (b :: rest) sep

/-! ## The package -/

/-- The package variables that stand for the environment. -/
structure Env where
  /-- The variable `getUserHomeDir` (initially `os.UserHomeDir`). -/
  getUserHomeDir : Option (Unit → String × Option GoError)
  /-- The variable `enforceStaiExecutable` (initially `enforceExists`). -/
  enforceStaiExecutable : Option (String → Outcome (Option GoError))
  /-- The variable `getFileInfo` (initially `os.Stat`). -/
  getFileInfo : Option (String → Option FileInfo × Option GoError)

/-- The struct `Context`. -/
structure Context where
  StaiExecutable : String
  Location : String
  IsDownThreshold : Bool
  DownThreshold : Float64
  Done : Bool
  deriving DecidableEq, Repr

/-- The constant `DefaultStaiExecutableSuffix`. -/
def DefaultStaiExecutableSuffix : String := "stai-blockchain/venv/bin/stai"

/-- The function `defaultStaiExecutable`, reading the variable `getUserHomeDir`. -/
def defaultStaiExecutable (getUserHomeDir : Option (Unit → String × Option GoError)) :
    Outcome (String × Option GoError) :=
  match getUserHomeDir with
  | none => .panic
  | some f =>
    match f () with
    | (_, some err) => .ret ("", some err)
    | (dirname, none) => .ret (dirname ++ "/" ++ DefaultStaiExecutableSuffix, none)

/-- The function `enforceExists`, reading the variable `getFileInfo`. The call
`info.IsDir()` on a nil `info` panics. -/
def enforceExists (getFileInfo : Option (String → Option FileInfo × Option GoError))
    (staiExecutable : String) : Outcome (Option GoError) :=
  match getFileInfo with
  | none => .panic
  | some stat =>
    match stat staiExecutable with
    | (info, err) =>
      if osIsNotExist err then
        .ret (some (errorsNew "stai executable does not exist"))
      else
        match info with
        | none => .panic
        | some fi =>
          if fi.isDir then
            .ret (some (errorsNew "stai executable can not be a directory"))
          else
            .ret none

/-- The package variables as initialised at start-up, over a given home-directory
lookup and file-info lookup. -/
def Env.initial (home : Unit → String × Option GoError)
    (stat : String → Option FileInfo × Option GoError) : Env :=
  { getUserHomeDir := some home
    enforceStaiExecutable := some (enforceExists (some stat))
    getFileInfo := some stat }

/-- What the command-line library extracts from the argument vector: the value
of each flag that was given, and the positional tokens. -/
structure CommandLine where
  /-- Value of `--stai-exec` / `-e` when the flag was given. -/
  staiExec : Option String
  /-- Value of `--down-threshold` / `-d` when the flag was given. -/
  downThreshold : Option Float64
  /-- Whether `--help` / `-h` was given. -/
  help : Bool
  /-- The positional tokens, `c.Args().Slice()`. -/
  positional : List String

/-- How the library treats the argument vector: it rejects it with an error of
its own, or it parses it into a `CommandLine`, or (as `RunCli` sets
`EnableBashCompletion`) it is asked for shell completions, with the flags read
up to that point. -/
inductive ParseResult where
  | usageError (err : GoError)
  | parsed (c : CommandLine)
  | completion (c : CommandLine)

/-- The local variables of `RunCli` that the flags and the `Action` closure
write to, with their zero values. -/
structure Vars where
  staiExecutable : String := ""
  location : String := ""
  done : Bool := false
  isDownThreshold : Bool := false
  downThreshold : Float64 := Float64.zero
  deriving DecidableEq, Repr

/-- The library writing the flag values to their `Destination` variables. -/
def bindFlags (c : CommandLine) (v : Vars) : Vars :=
  { v with
    staiExecutable := c.staiExec.getD v.staiExecutable
    downThreshold := c.downThreshold.getD v.downThreshold
    done := c.help }

/-- The `Action` closure of `RunCli`, as a transformer of the captured
variables that returns the closure's error. -/
def action (env : Env) (c : CommandLine) (v : Vars) : Outcome (Vars × Option GoError) :=
  if c.positional.length < 1 then
    .ret (v, some (errorsNew "LOCATION is missing"))
  else
    let v1 := if c.downThreshold.isSome then { v with isDownThreshold := true } else v
    let resolved : Outcome (Vars × Option GoError) :=
      if v1.staiExecutable = "" then
        match defaultStaiExecutable env.getUserHomeDir with
        | .panic => .panic
        | .ret (_, some err) => .ret (v1, some err)
        | .ret (defaultExecutable, none) =>
          .ret ({ v1 with staiExecutable := defaultExecutable }, none)
      else
        .ret (v1, none)
    match resolved with
    | .panic => .panic
    | .ret (v2, some err) => .ret (v2, some err)
    | .ret (v2, none) =>
      match env.enforceStaiExecutable with
      | none => .panic
      | some enforce =>
        match enforce v2.staiExecutable with
        | .panic => .panic
        | .ret (some err) => .ret (v2, some err)
        | .ret none =>
          .ret ({ v2 with location := TrimSpace (Join c.positional " ") }, none)

/-- The call `app.Run(args)`: a rejected argument vector returns the library's
error; the help flag shows the usage and returns nil without running the
`Action`; a completion request prints the completions and returns nil without
running the `Action`; otherwise the `Action` runs. -/
def appRun (env : Env) (p : ParseResult) (v : Vars) : Outcome (Vars × Option GoError) :=
  match p with
  | .usageError err => .ret (v, some err)
  | .parsed c =>
    let v0 := bindFlags c v
    if v0.done then .ret (v0, none) else action env c v0
  | .completion c => .ret (bindFlags c v, none)

/-- The function `RunCli`; the result is the pair `(*Context, error)`. -/
def RunCli (env : Env) (p : ParseResult) : Outcome (Option Context × Option GoError) :=
  match appRun env p {} with
  | .panic => .panic
  | .ret (_, some err) => .ret (none, some err)
  | .ret (v, none) =>
    .ret (some { StaiExecutable := v.staiExecutable
                 Location := v.location
                 IsDownThreshold := v.isDownThreshold
                 DownThreshold := v.downThreshold
                 Done := v.done }, none)

/-! ## The argument vector

The package hands the variable `args` to `app.Run`. The library drops the program
name, lets a `flag.FlagSet` of the Go standard library parse the rest over the
flags that `RunCli` registers, and, because `RunCli` sets
`EnableBashCompletion`, treats a last argument `--generate-bash-completion`
apart. `RunCli` sets no `Version`, so the library registers no version flag. -/

/-- The functions of `strconv` that flag parsing calls and that are taken as
given. -/
structure Strconv where
  /-- The call `strconv.ParseFloat(s, 64)`: the value, or the text with which the
  `flag` package reports the failure. -/
  ParseFloat : String → Except String Float64
  /-- The function `strconv.Quote`, which formats the verb `%q`. -/
  Quote : String → String

/-- Go `strconv.ParseBool`. -/
def ParseBool (s : String) : Option Bool :=
  if s = "1" ∨ s = "t" ∨ s = "T" ∨ s = "TRUE" ∨ s = "true" ∨ s = "True" then some true
  else if s = "0" ∨ s = "f" ∨ s = "F" ∨ s = "FALSE" ∨ s = "false" ∨ s = "False" then
    some false
  else none

/-- How `flag.FlagSet.parseOne` reads one argument. -/
inductive FlagToken where
  /-- Shorter than two characters or not starting with `-`: parsing stops here. -/
  | nonFlag
  /-- The argument `--`: parsing stops after it. -/
  | terminator
  /-- A name that is empty or starts with `-` or `=`. -/
  | badSyntax
  /-- A flag name, with the value after `=` when there is one. -/
  | flag (name : String) (value : Option String)
  deriving DecidableEq, Repr

/-- The search of `parseOne` for the first `=` after the first character of the
name: the characters before it, and the value after it. -/
def splitValue : List Char → List Char × Option (List Char)
  | [] => ([], none)
  | ch :: rest =>
    if ch = '=' then ([], some rest)
    else ((ch :: (splitValue rest).1), (splitValue rest).2)

/-- The head of `flag.FlagSet.parseOne`: one or two minus signs, then the name. -/
def flagToken (s : String) : FlagToken :=
  match s.data with
  | [] => .nonFlag
  | [_] => .nonFlag
  | c0 :: c1 :: rest =>
    if c0 ≠ '-' then .nonFlag
    else if c1 = '-' ∧ rest = [] then .terminator
    else
      match (if c1 = '-' then rest else c1 :: rest) with
      | [] => .badSyntax
      | n0 :: ns =>
        if n0 = '-' ∨ n0 = '=' then .badSyntax
        else .flag (String.mk (n0 :: (splitValue ns).1)) ((splitValue ns).2.map String.mk)

/-- The state of the flag set while it parses: the values written so far, and
the names of the flags seen (the map `actual`). -/
structure FlagSet where
  staiExec : Option String := none
  downThreshold : Option Float64 := none
  help : Bool := false
  actual : List String := []
  deriving DecidableEq, Repr

/-- What one call of `flag.FlagSet.parseOne` does. -/
inductive ParseOne where
  /-- No flag was read: parsing ends with these arguments left and this error. -/
  | stop (args : List String) (err : Option GoError)
  /-- A flag was read into the state; `usedNext` tells whether the argument after
  it was taken as its value. -/
  | seen (st : FlagSet) (usedNext : Bool)

/-- Go `flag.FlagSet.parseOne` on the first argument `s` and the arguments `rest`
after it, over the flags of `RunCli`: `stai-exec` and `e` (string),
`down-threshold` and `d` (float64), `help` and `h` (bool). -/
def parseOne (lib : Strconv) (st : FlagSet) (s : String) (rest : List String) : ParseOne :=
  match flagToken s with
  | .nonFlag => .stop (s :: rest) none
  | .terminator => .stop rest none
  | .badSyntax => .stop (s :: rest) (some (errorsNew ("bad flag syntax: " ++ s)))
  | .flag name value =>
    if name = "help" ∨ name = "h" then
      match value with
      | none => .seen { st with help := true, actual := name :: st.actual } false
      | some v =>
        match ParseBool v with
        | some b => .seen { st with help := b, actual := name :: st.actual } false
        | none =>
          .stop rest (some (errorsNew ("invalid boolean value " ++ lib.Quote v ++ " for -"
            ++ name ++ ": parse error")))
    else if name = "stai-exec" ∨ name = "e" then
      match value with
      | some v => .seen { st with staiExec := some v, actual := name :: st.actual } false
      | none =>
        match rest with
        | v :: _ => .seen { st with staiExec := some v, actual := name :: st.actual } true
        | [] => .stop [] (some (errorsNew ("flag needs an argument: -" ++ name)))
    else if name = "down-threshold" ∨ name = "d" then
      match value with
      | some v =>
        match lib.ParseFloat v with
        | .ok x => .seen { st with downThreshold := some x, actual := name :: st.actual } false
        | .error e =>
          .stop rest (some (errorsNew ("invalid value " ++ lib.Quote v ++ " for flag -"
            ++ name ++ ": " ++ e)))
      | none =>
        match rest with
        | v :: rest2 =>
          match lib.ParseFloat v with
          | .ok x =>
            .seen { st with downThreshold := some x, actual := name :: st.actual } true
          | .error e =>
            .stop rest2 (some (errorsNew ("invalid value " ++ lib.Quote v ++ " for flag -"
              ++ name ++ ": " ++ e)))
        | [] => .stop [] (some (errorsNew ("flag needs an argument: -" ++ name)))
    else
      .stop rest (some (errorsNew ("flag provided but not defined: -" ++ name)))

/-- Go `flag.FlagSet.Parse`: `parseOne` is called until it reads no flag. The
result is the state, the arguments left over, and the error. -/
def flagSetParse (lib : Strconv) (st : FlagSet) :
    List String → FlagSet × List String × Option GoError
  | [] => (st, [], none)
  | s :: rest =>
    match parseOne lib st s rest with
    | .stop args err => (st, args, err)
    | .seen st1 false => flagSetParse lib st1 rest
    | .seen st1 true =>
      match rest with
      | [] => (st1, [], none)
      | _ :: rest2 => flagSetParse lib st1 rest2

/-- The library's `normalizeFlags`: a flag seen under both of its names is an
error. The flags are visited in the order `stai-exec`, `down-threshold`, `help`. -/
def normalizeFlags (actual : List String) : Option GoError :=
  if "stai-exec" ∈ actual ∧ "e" ∈ actual then
    some (errorsNew "Cannot use two forms of the same flag: e stai-exec")
  else if "down-threshold" ∈ actual ∧ "d" ∈ actual then
    some (errorsNew "Cannot use two forms of the same flag: d down-threshold")
  else if "help" ∈ actual ∧ "h" ∈ actual then
    some (errorsNew "Cannot use two forms of the same flag: h help")
  else none

/-- The argument that the shell completion script appends. -/
def completionFlag : String := "--generate-bash-completion"

/-- The parsing stage of `app.Run(args)`: the completion argument is taken off
the end, the program name is dropped, the flag set parses the rest, and the
flags are normalized. Indexing the last argument of an empty vector, or slicing
the program name off an empty vector, panics. -/
def appParse (lib : Strconv) (args : List String) : Outcome ParseResult :=
  match args with
  | [] => .panic
  | _ :: _ =>
    let shellComplete : Bool := decide (args.getLast? = some completionFlag)
    match (if shellComplete then args.dropLast else args) with
    | [] => .panic
    | _ :: tokens =>
      match flagSetParse lib {} tokens with
      | (st, positional, err) =>
        let c : CommandLine :=
          { staiExec := st.staiExec, downThreshold := st.downThreshold, help := st.help,
            positional := positional }
        match normalizeFlags st.actual with
        | some nerr => .ret (.usageError nerr)
        | none =>
          if shellComplete then .ret (.completion c)
          else
            match err with
            | some e => .ret (.usageError e)
            | none => .ret (.parsed c)

/-- One of the flags `-e` and `-d`, written in its short form with its value as
the next argument. -/
inductive FlagArg where
  | e (value : String)
  | d (value : String)
  deriving DecidableEq, Repr

/-- The two arguments that a flag takes in the argument vector. -/
def FlagArg.args : FlagArg → List String
  | .e value => ["-e", value]
  | .d value => ["-d", value]

/-- The arguments of a sequence of flags, in the order given. -/
def flagArgs : List FlagArg → List String
  | [] => []
  | a :: rest => a.args ++ flagArgs rest

/-- The function `RunCli` on a given value of the package variable `args`. -/
def RunCliArgs (env : Env) (lib : Strconv) (args : List String) :
    Outcome (Option Context × Option GoError) :=
  match appParse lib args with
  | .panic => .panic
  | .ret p => RunCli env p

/-! ## Stand-ins of `cli_test.go` -/

/-- The test constant `steffenHome`. -/
def steffenHome : String := "/home/steffen"

/-- The test stand-in `noHomeDir`. -/
def noHomeDir : Unit → String × Option GoError :=
  fun _ => ("", some (errorsNew "no home dir"))

/-- The test stand-in `homeDir`. -/
def homeDir : Unit → String × Option GoError :=
  fun _ => (steffenHome, none)

/-- The test stand-in `exists`. -/
def exists_ : String → Outcome (Option GoError) :=
  fun _ => .ret none

/-- The test stand-in `doesNotExist`. -/
def doesNotExist : String → Outcome (Option GoError) :=
  fun _ => .ret (some (errorsNew "does not exist"))

/-- The test stand-in `fileExists`. -/
def fileExists : String → Option FileInfo × Option GoError :=
  fun _ => (some { isDir := false }, none)

/-- The test stand-in `fileDoesNotExist`, returning `fs.ErrNotExist`. -/
def fileDoesNotExist : String → Option FileInfo × Option GoError :=
  fun _ => (none, some { msg := "file does not exist", notExist := true })

/-- The test stand-in `fileIsDirectory`. -/
def fileIsDirectory : String → Option FileInfo × Option GoError :=
  fun _ => (some { isDir := true }, none)

/-- A file-info lookup failing the way `os.Stat` does on a path it may not
search: no file info, and an error that is not a not-exist error. -/
def filePermissionDenied : String → Option FileInfo × Option GoError :=
  fun _ => (none, some { msg := "permission denied", notExist := false })

/-- Environment with every package variable nil. -/
def envNil : Env :=
  { getUserHomeDir := none, enforceStaiExecutable := none, getFileInfo := none }

/-- Environment of the passing cases of `Test_run`. -/
def envHome : Env :=
  { getUserHomeDir := some homeDir, enforceStaiExecutable := some exists_, getFileInfo := none }

/-- Environment of the case "nok with default home not exist", with a nil
executable check. -/
def envNoHome : Env :=
  { getUserHomeDir := some noHomeDir, enforceStaiExecutable := none, getFileInfo := none }

/-- Environment of the case "nok with custom stai executable not exist" of
`Test_run`. -/
def envMissing : Env :=
  { getUserHomeDir := some homeDir, enforceStaiExecutable := some doesNotExist,
    getFileInfo := none }

/-- A stand-in for `strconv` that knows the two numerals used below (`0.2` is
`0x3FC999999999999A`) and quotes without escaping. -/
def strconvStub : Strconv :=
  { ParseFloat := fun s =>
      if s = "0.2" then .ok { bits := 0x3FC999999999999A }
      else if s = "0" then .ok Float64.zero
      else .error "parse error"
    Quote := fun s => "\"" ++ s ++ "\"" }

/-! ## Auxiliary lemmas -/

/-- With the help flag the `Action` does not run: the result is the early-exit
`Context` holding the flag destinations. -/
theorem RunCli_help (env : Env) (c : CommandLine) (hhelp : c.help = true) :
    RunCli env (.parsed c) =
      .ret (some { StaiExecutable := c.staiExec.getD ""
                   Location := ""
                   IsDownThreshold := false
                   DownThreshold := c.downThreshold.getD Float64.zero
                   Done := true }, none) := by
  simp [RunCli, appRun, bindFlags, hhelp]

/-- What a successful run without the help flag went through: a positional
token, the resolved executable, an accepting executable check, and the fields of
the returned `Context`. -/
theorem RunCli_success_inv (env : Env) (c : CommandLine) (ctx : Context)
    (hhelp : c.help = false)
    (h : RunCli env (.parsed c) = .ret (some ctx, none)) :
    c.positional ≠ [] ∧ ctx.Done = false ∧
    ctx.Location = TrimSpace (Join c.positional " ") ∧
    ctx.IsDownThreshold = c.downThreshold.isSome ∧
    ctx.DownThreshold = c.downThreshold.getD Float64.zero ∧
    (if c.staiExec.getD "" = "" then
       ∃ f H, env.getUserHomeDir = some f ∧ f () = (H, none) ∧
         ctx.StaiExecutable = H ++ "/" ++ DefaultStaiExecutableSuffix
     else ctx.StaiExecutable = c.staiExec.getD "") ∧
    ∃ enforce, env.enforceStaiExecutable = some enforce ∧
      enforce ctx.StaiExecutable = .ret none := by
  obtain ⟨se, dt, help, pos⟩ := c
  obtain ⟨home, enf, stat⟩ := env
  simp only at hhelp
  subst hhelp
  cases pos with
  | nil => simp [RunCli, appRun, bindFlags, action] at h
  | cons t ts =>
    by_cases hse : se.getD "" = ""
    · cases home with
      | none => cases dt <;> simp [RunCli, appRun, bindFlags, action, defaultStaiExecutable, hse] at h
      | some f =>
        rcases hf : f () with ⟨H, _ | err⟩
        · cases enf with
          | none =>
            cases dt <;>
              simp [RunCli, appRun, bindFlags, action, defaultStaiExecutable, hse, hf] at h
          | some enforce =>
            rcases he : enforce (H ++ "/" ++ DefaultStaiExecutableSuffix) with ⟨_ | err⟩ | _
            · cases dt <;>
                simp [RunCli, appRun, bindFlags, action, defaultStaiExecutable, hse, hf, he] at h <;>
                subst h <;> simp [hse, hf, he]
            · cases dt <;>
                simp [RunCli, appRun, bindFlags, action, defaultStaiExecutable, hse, hf, he] at h
            · cases dt <;>
                simp [RunCli, appRun, bindFlags, action, defaultStaiExecutable, hse, hf, he] at h
        · cases dt <;>
            simp [RunCli, appRun, bindFlags, action, defaultStaiExecutable, hse, hf] at h
    · cases enf with
      | none => cases dt <;> simp [RunCli, appRun, bindFlags, action, hse] at h
      | some enforce =>
        rcases he : enforce (se.getD "") with ⟨_ | err⟩ | _
        · cases dt <;> simp [RunCli, appRun, bindFlags, action, hse, he] at h <;>
            subst h <;> simp [hse, he]
        · cases dt <;> simp [RunCli, appRun, bindFlags, action, hse, he] at h
        · cases dt <;> simp [RunCli, appRun, bindFlags, action, hse, he] at h

/-- The first character left by `TrimLeftFunc` does not satisfy the predicate. -/
theorem TrimLeftFunc_head (s : List Char) (f : Char → Bool) (ch : Char)
    (h : (TrimLeftFunc s f).head? = some ch) : f ch = false := by
  have key := List.head?_dropWhile_not f s
  unfold TrimLeftFunc at h
  rw [h] at key
  exact key

/-- The function `TrimRightFunc` only removes a suffix. -/
theorem TrimRightFunc_append (s : List Char) (f : Char → Bool) :
    s = TrimRightFunc s f ++ (s.reverse.takeWhile f).reverse := by
  unfold TrimRightFunc
  rw [← List.reverse_append, List.takeWhile_append_dropWhile, List.reverse_reverse]

/-- The function `TrimRightFunc` keeps the first character. -/
theorem TrimRightFunc_head (s : List Char) (f : Char → Bool) (ch : Char)
    (h : (TrimRightFunc s f).head? = some ch) : s.head? = some ch := by
  have hne : TrimRightFunc s f ≠ [] := by
    intro hnil
    rw [hnil] at h
    simp at h
  rw [TrimRightFunc_append s f, List.head?_append_of_ne_nil _ hne]
  exact h

/-- The last character left by `TrimRightFunc` does not satisfy the predicate. -/
theorem TrimRightFunc_getLast (s : List Char) (f : Char → Bool) (ch : Char)
    (h : (TrimRightFunc s f).getLast? = some ch) : f ch = false := by
  unfold TrimRightFunc at h
  rw [List.getLast?_reverse] at h
  have key := List.head?_dropWhile_not f s.reverse
  rw [h] at key
  exact key

/-- The result of `TrimSpace` does not start with white space. -/
theorem TrimSpace_head (s : String) (ch : Char)
    (h : (TrimSpace s).data.head? = some ch) : IsSpace ch = false :=
  TrimLeftFunc_head s.data IsSpace ch (TrimRightFunc_head _ IsSpace ch h)

/-- The result of `TrimSpace` does not end with white space. -/
theorem TrimSpace_getLast (s : String) (ch : Char)
    (h : (TrimSpace s).data.getLast? = some ch) : IsSpace ch = false :=
  TrimRightFunc_getLast _ IsSpace ch h

/-- A returned `Context` with `Done` false comes from a run without the help flag. -/
theorem RunCli_not_done (env : Env) (c : CommandLine) (ctx : Context)
    (h : RunCli env (.parsed c) = .ret (some ctx, none)) (hdone : ctx.Done = false) :
    c.help = false := by
  cases hhelp : c.help with
  | false => rfl
  | true =>
    rw [RunCli_help env c hhelp] at h
    injection h with h
    injection h with h _
    injection h with h
    subst h
    simp at hdone

/-! ## Missing location -/

/-- On a parsed command line with no positional token and no help flag, `RunCli`
returns the error "LOCATION is missing", whatever the package variables for the
home-directory lookup and the executable check hold (nil included): neither is
called before the check. -/
theorem RunCli_location_missing (env : Env) (c : CommandLine)
    (hhelp : c.help = false) (hpos : c.positional = []) :
    RunCli env (.parsed c) = .ret (none, some (errorsNew "LOCATION is missing")) := by
  simp [RunCli, appRun, bindFlags, action, hhelp, hpos]

/-! ## Location -/

/-- On a parsed command line, after a successful resolution that is not an early
exit there is at least one positional token, `Location` is `TrimSpace` of the
tokens joined with single spaces, and `Location` neither starts nor ends with a
white-space character. -/
theorem RunCli_location_joined_trimmed (env : Env) (c : CommandLine) (ctx : Context)
    (h : RunCli env (.parsed c) = .ret (some ctx, none)) (hdone : ctx.Done = false) :
    1 ≤ c.positional.length ∧
    ctx.Location = TrimSpace (Join c.positional " ") ∧
    (∀ ch, ctx.Location.data.head? = some ch → IsSpace ch = false) ∧
    (∀ ch, ctx.Location.data.getLast? = some ch → IsSpace ch = false) := by
  have hhelp := RunCli_not_done env c ctx h hdone
  obtain ⟨hpos, -, hloc, -⟩ := RunCli_success_inv env c ctx hhelp h
  refine ⟨?_, hloc, ?_, ?_⟩
  · exact List.length_pos.mpr hpos
  · intro ch hch
    rw [hloc] at hch
    exact TrimSpace_head _ ch hch
  · intro ch hch
    rw [hloc] at hch
    exact TrimSpace_getLast _ ch hch

/-! ## Default executable -/

/-- C3: when the home-directory lookup returns `H` without error,
`defaultStaiExecutable` returns `H + "/" + "stai-blockchain/venv/bin/stai"` and
no error; and when moreover the executable flag is omitted and the lookup is
consulted (no help flag), every successful `RunCli` has that string as
`StaiExecutable`. -/
theorem defaultStaiExecutable_home (env : Env) (c : CommandLine)
    (f : Unit → String × Option GoError) (H : String)
    (hflag : c.staiExec = none) (hhelp : c.help = false)
    (hhome : env.getUserHomeDir = some f) (hf : f () = (H, none)) :
    defaultStaiExecutable env.getUserHomeDir
      = .ret (H ++ "/" ++ "stai-blockchain/venv/bin/stai", none) ∧
    ∀ ctx, RunCli env (.parsed c) = .ret (some ctx, none) →
      ctx.StaiExecutable = H ++ "/" ++ "stai-blockchain/venv/bin/stai" := by
  constructor
  · simp [defaultStaiExecutable, hhome, hf, DefaultStaiExecutableSuffix]
  · intro ctx h
    obtain ⟨-, -, -, -, -, hexe, -⟩ := RunCli_success_inv env c ctx hhelp h
    rw [hflag] at hexe
    simp only [Option.getD_none, if_true] at hexe
    obtain ⟨g, K, hg, hgK, hctx⟩ := hexe
    rw [hhome] at hg
    injection hg with hg
    subst hg
    rw [hf] at hgK
    injection hgK with hK _
    subst hK
    exact hctx

/-- Case "ok with default stai" of `Test_run`. -/
theorem defaultStaiExecutable_home_witness :
    defaultStaiExecutable (some homeDir)
      = .ret ("/home/steffen" ++ "/" ++ "stai-blockchain/venv/bin/stai", none) ∧
    RunCli envHome (.parsed { staiExec := none, downThreshold := none, help := false,
                              positional := ["mars"] })
      = .ret (some { StaiExecutable := "/home/steffen/stai-blockchain/venv/bin/stai",
                     Location := "mars", IsDownThreshold := false,
                     DownThreshold := Float64.zero, Done := false }, none) ∧
    ((⟨"/home/steffen/stai-blockchain/venv/bin/stai", "mars", false, Float64.zero, false⟩ :
        Context).StaiExecutable
      = "/home/steffen" ++ "/" ++ "stai-blockchain/venv/bin/stai") :=
  have key := defaultStaiExecutable_home envHome
    { staiExec := none, downThreshold := none, help := false, positional := ["mars"] }
    homeDir "/home/steffen" rfl rfl rfl rfl
  ⟨key.1, by decide, key.2 _ (by decide)⟩

/-- C4: when the executable flag is omitted, there is a positional token, and the
home-directory lookup (consulted, as there is no help flag) returns the error `E`,
`RunCli` returns `(nil, E)` whatever the executable check is, and
`defaultStaiExecutable` returns `("", E)`. -/
theorem RunCli_home_error (env : Env) (c : CommandLine)
    (f : Unit → String × Option GoError) (s : String) (E : GoError)
    (hflag : c.staiExec = none) (hhelp : c.help = false) (hpos : 1 ≤ c.positional.length)
    (hhome : env.getUserHomeDir = some f) (hf : f () = (s, some E)) :
    RunCli env (.parsed c) = .ret (none, some E) ∧
    defaultStaiExecutable env.getUserHomeDir = .ret ("", some E) := by
  have hlt : ¬ c.positional.length < 1 := by omega
  constructor
  · cases hdt : c.downThreshold <;>
      simp [RunCli, appRun, bindFlags, action, defaultStaiExecutable, hflag, hhelp, hlt,
        hhome, hf, hdt]
  · simp [defaultStaiExecutable, hhome, hf]

/-- Case "nok with default home not exist" of `Test_run`, the executable check
being nil. -/
theorem RunCli_home_error_witness :
    RunCli envNoHome (.parsed { staiExec := none, downThreshold := none, help := false,
                                positional := ["elon on mars"] })
      = .ret (none, some { msg := "no home dir", notExist := false }) ∧
    defaultStaiExecutable (some noHomeDir)
      = .ret ("", some { msg := "no home dir", notExist := false }) :=
  RunCli_home_error envNoHome _ noHomeDir "" (errorsNew "no home dir") rfl rfl (by decide)
    rfl rfl

/-! ## Executable flag -/

/-- C5, as stated, fails: with the executable flag given the empty string as its
value, a successful resolution has the default path under the home directory as
`StaiExecutable`, not the value of the flag. -/
theorem RunCli_staiExec_empty_counterexample :
    RunCli envHome (.parsed { staiExec := some "", downThreshold := none, help := false,
                              positional := ["mars"] })
      = .ret (some { StaiExecutable := "/home/steffen/stai-blockchain/venv/bin/stai",
                     Location := "mars", IsDownThreshold := false,
                     DownThreshold := Float64.zero, Done := false }, none) ∧
    "/home/steffen/stai-blockchain/venv/bin/stai" ≠ "" := by
  decide

/-- C5, amended: if the executable flag is given with a non-empty value `V`, every
successful resolution has `StaiExecutable` equal to `V`. -/
theorem RunCli_staiExec_verbatim (env : Env) (c : CommandLine) (V : String) (ctx : Context)
    (hflag : c.staiExec = some V) (hV : V ≠ "")
    (h : RunCli env (.parsed c) = .ret (some ctx, none)) :
    ctx.StaiExecutable = V := by
  cases hhelp : c.help with
  | true =>
    rw [RunCli_help env c hhelp] at h
    injection h with h
    injection h with h _
    injection h with h
    subst h
    simp [hflag]
  | false =>
    obtain ⟨-, -, -, -, -, hexe, -⟩ := RunCli_success_inv env c ctx hhelp h
    rw [hflag] at hexe
    simp only [Option.getD_some, if_neg hV] at hexe
    exact hexe

/-- Case "ok with custom stai" of `Test_run`. -/
theorem RunCli_staiExec_verbatim_witness :
    "/home/something/else/stai" ≠ "" ∧
    RunCli envHome (.parsed { staiExec := some "/home/something/else/stai",
                              downThreshold := none, help := false,
                              positional := ["elon on mars"] })
      = .ret (some { StaiExecutable := "/home/something/else/stai",
                     Location := "elon on mars", IsDownThreshold := false,
                     DownThreshold := Float64.zero, Done := false }, none) ∧
    ((⟨"/home/something/else/stai", "elon on mars", false, Float64.zero, false⟩ :
        Context).StaiExecutable = "/home/something/else/stai") :=
  ⟨by decide, by decide,
    RunCli_staiExec_verbatim envHome
      { staiExec := some "/home/something/else/stai", downThreshold := none, help := false,
        positional := ["elon on mars"] }
      "/home/something/else/stai" _ rfl (by decide) (by decide)⟩

/-! ## Down threshold -/

/-- On a parsed command line, after a successful resolution that is not an early
exit, if the threshold flag was given with value `x` then `IsDownThreshold` is
true and `DownThreshold` is `x` (also for `x = 0.0`); if it was not given,
`IsDownThreshold` is false and `DownThreshold` is `0`. -/
theorem RunCli_down_threshold (env : Env) (c : CommandLine) (ctx : Context)
    (h : RunCli env (.parsed c) = .ret (some ctx, none)) (hdone : ctx.Done = false) :
    (∀ x, c.downThreshold = some x → ctx.IsDownThreshold = true ∧ ctx.DownThreshold = x) ∧
    (c.downThreshold = none →
      ctx.IsDownThreshold = false ∧ ctx.DownThreshold = Float64.zero) := by
  have hhelp := RunCli_not_done env c ctx h hdone
  obtain ⟨-, -, -, hset, hval, -⟩ := RunCli_success_inv env c ctx hhelp h
  constructor
  · intro x hx
    rw [hx] at hset hval
    exact ⟨hset, hval⟩
  · intro hx
    rw [hx] at hset hval
    exact ⟨hset, hval⟩

/-! ## `enforceExists` -/

/-- C7: for every path, if `os.IsNotExist` holds of the error of the file-info
lookup, `enforceExists` returns the error "stai executable does not exist". -/
theorem enforceExists_not_exist (stat : String → Option FileInfo × Option GoError)
    (path : String) (h : osIsNotExist (stat path).2 = true) :
    enforceExists (some stat) path
      = .ret (some (errorsNew "stai executable does not exist")) := by
  simp [enforceExists, h]

/-- Case "nok file does not exist" of `Test_enforceExists`. -/
theorem enforceExists_not_exist_witness :
    osIsNotExist (fileDoesNotExist "stai").2 = true ∧
    enforceExists (some fileDoesNotExist) "stai"
      = .ret (some { msg := "stai executable does not exist", notExist := false }) :=
  ⟨rfl, enforceExists_not_exist fileDoesNotExist "stai" rfl⟩

/-- C8: for every path, if the file-info lookup returns a file info and no error,
`enforceExists` returns the error "stai executable can not be a directory" when
the file info is a directory, and no error when it is not. -/
theorem enforceExists_directory (stat : String → Option FileInfo × Option GoError)
    (path : String) (fi : FileInfo) (h : stat path = (some fi, none)) :
    (fi.isDir = true → enforceExists (some stat) path
      = .ret (some (errorsNew "stai executable can not be a directory"))) ∧
    (fi.isDir = false → enforceExists (some stat) path = .ret none) := by
  constructor <;> intro hdir <;> simp [enforceExists, h, osIsNotExist, hdir]

/-- Cases "nok file is a directory" and "ok" of `Test_enforceExists`. -/
theorem enforceExists_directory_witness :
    enforceExists (some fileIsDirectory) "stai"
      = .ret (some { msg := "stai executable can not be a directory", notExist := false }) ∧
    enforceExists (some fileExists) "stai" = .ret none :=
  ⟨(enforceExists_directory fileIsDirectory "stai" { isDir := true } rfl).1 rfl,
   (enforceExists_directory fileExists "stai" { isDir := false } rfl).2 rfl⟩

/-- C9 does not hold of the code: when the file-info lookup fails with an error
other than not-exist and returns no file info (permission denied), `enforceExists`
does not return the error "stai executable does not exist": the call
`info.IsDir()` on the nil file info panics, and so does `RunCli` with the package
variables as initialised. -/
theorem enforceExists_permission_denied_panics :
    filePermissionDenied "/home/steffen/stai-blockchain/venv/bin/stai"
      = (none, some { msg := "permission denied", notExist := false }) ∧
    enforceExists (some filePermissionDenied) "/home/steffen/stai-blockchain/venv/bin/stai"
      = .panic ∧
    RunCli (Env.initial homeDir filePermissionDenied)
        (.parsed { staiExec := none, downThreshold := none, help := false,
                   positional := ["mars"] })
      = .panic := by
  decide

/-! ## Context invariant -/

/-- C10 does not hold of the code: the single positional token " " passes the
check on the number of tokens, and the resolution succeeds, is not an early exit,
and has the empty `Location`. -/
theorem RunCli_blank_location :
    RunCli envHome (.parsed { staiExec := none, downThreshold := none, help := false,
                              positional := [" "] })
      = .ret (some { StaiExecutable := "/home/steffen/stai-blockchain/venv/bin/stai",
                     Location := "", IsDownThreshold := false,
                     DownThreshold := Float64.zero, Done := false }, none) := by
  decide

/-! ## Auxiliary lemmas on the resolved executable -/

/-- A run without the help flag and with a positional token, once the executable
is resolved to `P` (the non-empty flag value, or the default under the home
directory that the lookup returned): what remains is the executable check on `P`. -/
theorem RunCli_resolved (env : Env) (c : CommandLine) (P : String)
    (hhelp : c.help = false) (hpos : 1 ≤ c.positional.length)
    (hres : (c.staiExec.getD "" ≠ "" ∧ P = c.staiExec.getD "") ∨
      (c.staiExec.getD "" = "" ∧ ∃ f H, env.getUserHomeDir = some f ∧ f () = (H, none) ∧
        P = H ++ "/" ++ DefaultStaiExecutableSuffix)) :
    RunCli env (.parsed c) =
      match env.enforceStaiExecutable with
      | none => .panic
      | some enforce =>
        match enforce P with
        | .panic => .panic
        | .ret (some err) => .ret (none, some err)
        | .ret none =>
          .ret (some { StaiExecutable := P
                       Location := TrimSpace (Join c.positional " ")
                       IsDownThreshold := c.downThreshold.isSome
                       DownThreshold := c.downThreshold.getD Float64.zero
                       Done := false }, none) := by
  obtain ⟨se, dt, help, pos⟩ := c
  obtain ⟨home, enf, stat⟩ := env
  simp only at hhelp hpos hres
  subst hhelp
  have hlt : ¬ pos.length < 1 := by omega
  rcases hres with ⟨hne, rfl⟩ | ⟨he, f, H, hhome, hf, rfl⟩
  · cases enf with
    | none => cases dt <;> simp [RunCli, appRun, bindFlags, action, hne, hlt]
    | some enforce =>
      rcases hen : enforce (se.getD "") with ⟨_ | err⟩ | _ <;>
        cases dt <;> simp [RunCli, appRun, bindFlags, action, hne, hlt, hen]
  · subst hhome
    cases enf with
    | none =>
      cases dt <;> simp [RunCli, appRun, bindFlags, action, defaultStaiExecutable, he, hlt, hf]
    | some enforce =>
      rcases hen : enforce (H ++ "/" ++ DefaultStaiExecutableSuffix) with ⟨_ | err⟩ | _ <;>
        cases dt <;>
          simp [RunCli, appRun, bindFlags, action, defaultStaiExecutable, he, hlt, hf, hen]

/-- A run without the help flag, with a positional token and without a non-empty
executable flag, when the home-directory lookup returns an error: the error is
returned. -/
theorem RunCli_lookup_failed (env : Env) (c : CommandLine)
    (f : Unit → String × Option GoError) (s : String) (E : GoError)
    (hhelp : c.help = false) (hpos : 1 ≤ c.positional.length)
    (hflag : c.staiExec.getD "" = "")
    (hhome : env.getUserHomeDir = some f) (hf : f () = (s, some E)) :
    RunCli env (.parsed c) = .ret (none, some E) := by
  have hlt : ¬ c.positional.length < 1 := by omega
  cases hdt : c.downThreshold <;>
    simp [RunCli, appRun, bindFlags, action, defaultStaiExecutable, hflag, hhelp, hlt,
      hhome, hf, hdt]

/-- A run without the help flag, with a positional token and without a non-empty
executable flag, when the variable `getUserHomeDir` is nil: the call panics. -/
theorem RunCli_lookup_nil (env : Env) (c : CommandLine)
    (hhelp : c.help = false) (hpos : 1 ≤ c.positional.length)
    (hflag : c.staiExec.getD "" = "") (hhome : env.getUserHomeDir = none) :
    RunCli env (.parsed c) = .panic := by
  have hlt : ¬ c.positional.length < 1 := by omega
  cases hdt : c.downThreshold <;>
    simp [RunCli, appRun, bindFlags, action, defaultStaiExecutable, hflag, hhelp, hlt,
      hhome, hdt]

/-! ## Failures -/

/-- C12: whenever `RunCli` returns an error, the `Context` returned with it is
nil. -/
theorem RunCli_error_nil_context (env : Env) (p : ParseResult) (r : Option Context)
    (err : GoError) (h : RunCli env p = .ret (r, some err)) : r = none := by
  unfold RunCli at h
  split at h
  · cases h
  · injection h with h
    injection h with h _
    exact h.symm
  · injection h with h
    injection h with _ h
    cases h

/-- The three failures of the `Action`: missing location, failed home-directory
lookup, failed executable check. -/
theorem RunCli_error_nil_context_witness :
    RunCli envNil (.parsed { staiExec := none, downThreshold := none, help := false,
                             positional := [] })
      = .ret (none, some (errorsNew "LOCATION is missing")) ∧
    RunCli envNoHome (.parsed { staiExec := none, downThreshold := none, help := false,
                                positional := ["elon on mars"] })
      = .ret (none, some (errorsNew "no home dir")) ∧
    RunCli envMissing (.parsed { staiExec := none, downThreshold := none, help := false,
                                 positional := ["elon on mars"] })
      = .ret (none, some (errorsNew "does not exist")) ∧
    (none : Option Context) = none :=
  ⟨by decide, by decide, by decide,
    RunCli_error_nil_context envMissing
      (.parsed { staiExec := none, downThreshold := none, help := false,
                 positional := ["elon on mars"] })
      none (errorsNew "does not exist") (by decide)⟩

/-! ## Executable check -/

/-- C15: in a run without the help flag and with a positional token, let `P` be
the resolved executable (the non-empty flag value, or the default under the home
directory that the lookup returned). If the executable check on `P` returns the
error `E`, `RunCli` returns `(nil, E)`; if it returns nil, `RunCli` succeeds and
`StaiExecutable` is `P`; and the check is consulted on `P` only: a check with the
same result on `P` gives the same result of `RunCli`. -/
theorem RunCli_executable_check (env : Env) (c : CommandLine) (P : String)
    (enforce : String → Outcome (Option GoError))
    (hhelp : c.help = false) (hpos : 1 ≤ c.positional.length)
    (hres : (c.staiExec.getD "" ≠ "" ∧ P = c.staiExec.getD "") ∨
      (c.staiExec.getD "" = "" ∧ ∃ f H, env.getUserHomeDir = some f ∧ f () = (H, none) ∧
        P = H ++ "/" ++ "stai-blockchain/venv/bin/stai"))
    (henf : env.enforceStaiExecutable = some enforce) :
    (∀ E, enforce P = .ret (some E) → RunCli env (.parsed c) = .ret (none, some E)) ∧
    (enforce P = .ret none →
      ∃ ctx, RunCli env (.parsed c) = .ret (some ctx, none) ∧ ctx.StaiExecutable = P) ∧
    (∀ enforce2 : String → Outcome (Option GoError), enforce2 P = enforce P →
      RunCli { env with enforceStaiExecutable := some enforce2 } (.parsed c)
        = RunCli env (.parsed c)) := by
  have key := RunCli_resolved env c P hhelp hpos hres
  rw [henf] at key
  refine ⟨?_, ?_, ?_⟩
  · intro E hE
    rw [key]
    simp only [hE]
  · intro hok
    rw [key]
    simp only [hok]
    exact ⟨_, rfl, rfl⟩
  · intro enforce2 h2
    have key2 := RunCli_resolved { env with enforceStaiExecutable := some enforce2 } c P
      hhelp hpos hres
    rw [key, key2]
    simp only [h2]

/-- Case "nok with custom stai executable not exist" of `Test_run`, and the same
command line with a check that accepts the default path. -/
theorem RunCli_executable_check_witness :
    RunCli envMissing (.parsed { staiExec := none, downThreshold := none, help := false,
                                 positional := ["elon on mars"] })
      = .ret (none, some (errorsNew "does not exist")) ∧
    (∃ ctx, RunCli envHome (.parsed { staiExec := none, downThreshold := none,
                                      help := false, positional := ["elon on mars"] })
        = .ret (some ctx, none) ∧
      ctx.StaiExecutable = "/home/steffen" ++ "/" ++ "stai-blockchain/venv/bin/stai") :=
  ⟨(RunCli_executable_check envMissing
      { staiExec := none, downThreshold := none, help := false,
        positional := ["elon on mars"] }
      ("/home/steffen" ++ "/" ++ "stai-blockchain/venv/bin/stai") doesNotExist rfl
      (by decide) (Or.inr ⟨rfl, homeDir, "/home/steffen", rfl, rfl, rfl⟩) rfl).1
      (errorsNew "does not exist") rfl,
   (RunCli_executable_check envHome
      { staiExec := none, downThreshold := none, help := false,
        positional := ["elon on mars"] }
      ("/home/steffen" ++ "/" ++ "stai-blockchain/venv/bin/stai") exists_ rfl
      (by decide) (Or.inr ⟨rfl, homeDir, "/home/steffen", rfl, rfl, rfl⟩) rfl).2.1 rfl⟩

/-! ## Success and failure of the `Action` -/

/-- On a parsed command line without the help flag and with a positional token,
the run succeeds if and only if the executable resolves to some `P` (the flag
value is non-empty, or the home-directory lookup succeeds) and the executable
check accepts `P`; and an error it returns is the error of the home-directory
lookup or the error of the executable check on the resolved path. -/
theorem RunCli_succeeds_iff (env : Env) (c : CommandLine)
    (hhelp : c.help = false) (hpos : 1 ≤ c.positional.length) :
    ((∃ ctx, RunCli env (.parsed c) = .ret (some ctx, none)) ↔
      ∃ P, ((c.staiExec.getD "" ≠ "" ∧ P = c.staiExec.getD "") ∨
          (c.staiExec.getD "" = "" ∧ ∃ f H, env.getUserHomeDir = some f ∧
            f () = (H, none) ∧ P = H ++ "/" ++ "stai-blockchain/venv/bin/stai")) ∧
        ∃ enforce, env.enforceStaiExecutable = some enforce ∧ enforce P = .ret none) ∧
    (∀ err, RunCli env (.parsed c) = .ret (none, some err) →
      (c.staiExec.getD "" = "" ∧
        ∃ f s, env.getUserHomeDir = some f ∧ f () = (s, some err)) ∨
      (∃ P, ((c.staiExec.getD "" ≠ "" ∧ P = c.staiExec.getD "") ∨
          (c.staiExec.getD "" = "" ∧ ∃ f H, env.getUserHomeDir = some f ∧
            f () = (H, none) ∧ P = H ++ "/" ++ "stai-blockchain/venv/bin/stai")) ∧
        ∃ enforce, env.enforceStaiExecutable = some enforce ∧
          enforce P = .ret (some err))) := by
  refine ⟨⟨?_, ?_⟩, ?_⟩
  · rintro ⟨ctx, h⟩
    obtain ⟨-, -, -, -, -, hexe, enforce, henf, hok⟩ := RunCli_success_inv env c ctx hhelp h
    refine ⟨ctx.StaiExecutable, ?_, enforce, henf, hok⟩
    by_cases hflag : c.staiExec.getD "" = ""
    · rw [if_pos hflag] at hexe
      exact Or.inr ⟨hflag, hexe⟩
    · rw [if_neg hflag] at hexe
      exact Or.inl ⟨hflag, hexe⟩
  · rintro ⟨P, hres, enforce, henf, hok⟩
    have key := RunCli_resolved env c P hhelp hpos hres
    rw [henf] at key
    simp only [hok] at key
    exact ⟨_, key⟩
  · intro err h
    have after : ∀ P, ((c.staiExec.getD "" ≠ "" ∧ P = c.staiExec.getD "") ∨
          (c.staiExec.getD "" = "" ∧ ∃ f H, env.getUserHomeDir = some f ∧
            f () = (H, none) ∧ P = H ++ "/" ++ "stai-blockchain/venv/bin/stai")) →
        ∃ enforce, env.enforceStaiExecutable = some enforce ∧
          enforce P = .ret (some err) := by
      intro P hres
      have key := RunCli_resolved env c P hhelp hpos hres
      rw [h] at key
      cases henf : env.enforceStaiExecutable with
      | none => rw [henf] at key; cases key
      | some enforce =>
        rw [henf] at key
        rcases hen : enforce P with ⟨_ | e⟩ | _
        · simp only [hen] at key
          cases key
        · simp only [hen] at key
          injection key with key
          injection key with _ key
          injection key with key
          subst key
          exact ⟨enforce, rfl, hen⟩
        · simp only [hen] at key
          cases key
    by_cases hflag : c.staiExec.getD "" = ""
    · cases hhome : env.getUserHomeDir with
      | none =>
        rw [RunCli_lookup_nil env c hhelp hpos hflag hhome] at h
        cases h
      | some f =>
        rcases hf : f () with ⟨H, _ | e⟩
        · exact Or.inr ⟨_, Or.inr ⟨hflag, f, H, rfl, hf, rfl⟩,
            after _ (Or.inr ⟨hflag, f, H, hhome, hf, rfl⟩)⟩
        · rw [RunCli_lookup_failed env c f H e hhelp hpos hflag hhome hf] at h
          injection h with h
          injection h with _ h
          injection h with h
          subst h
          exact Or.inl ⟨hflag, f, H, rfl, hf⟩
    · exact Or.inr ⟨_, Or.inl ⟨hflag, rfl⟩, after _ (Or.inl ⟨hflag, rfl⟩)⟩

/-! ## Independence of the home-directory lookup -/

/-- C17: when the executable flag is given with a non-empty value, two runs that
differ only in the variable `getUserHomeDir` (nil, failing, or returning any
directory) have the same result. -/
theorem RunCli_flag_ignores_home (env : Env) (c : CommandLine) (V : String)
    (home1 home2 : Option (Unit → String × Option GoError))
    (hflag : c.staiExec = some V) (hV : V ≠ "") :
    RunCli { env with getUserHomeDir := home1 } (.parsed c)
      = RunCli { env with getUserHomeDir := home2 } (.parsed c) := by
  cases hhelp : c.help with
  | true => rw [RunCli_help _ c hhelp, RunCli_help _ c hhelp]
  | false =>
    cases hp : c.positional with
    | nil => simp [RunCli, appRun, bindFlags, action, hhelp, hp]
    | cons t ts =>
      have hpos : 1 ≤ c.positional.length := by rw [hp]; simp
      have hres : ∀ e : Env, (c.staiExec.getD "" ≠ "" ∧ V = c.staiExec.getD "") ∨
          (c.staiExec.getD "" = "" ∧ ∃ f H, e.getUserHomeDir = some f ∧ f () = (H, none) ∧
            V = H ++ "/" ++ DefaultStaiExecutableSuffix) := by
        intro e
        left
        rw [hflag]
        exact ⟨hV, rfl⟩
      rw [RunCli_resolved _ c V hhelp hpos (hres _),
        RunCli_resolved _ c V hhelp hpos (hres _)]

/-- The custom executable of `Test_run` with a lookup that returns the home
directory, and with a nil lookup. -/
theorem RunCli_flag_ignores_home_witness :
    RunCli { envHome with getUserHomeDir := some homeDir }
        (.parsed { staiExec := some "/home/something/else/stai", downThreshold := none,
                   help := false, positional := ["elon on mars"] })
      = RunCli { envHome with getUserHomeDir := none }
        (.parsed { staiExec := some "/home/something/else/stai", downThreshold := none,
                   help := false, positional := ["elon on mars"] }) ∧
    RunCli { envHome with getUserHomeDir := none }
        (.parsed { staiExec := some "/home/something/else/stai", downThreshold := none,
                   help := false, positional := ["elon on mars"] })
      = .ret (some { StaiExecutable := "/home/something/else/stai",
                     Location := "elon on mars", IsDownThreshold := false,
                     DownThreshold := Float64.zero, Done := false }, none) :=
  ⟨RunCli_flag_ignores_home envHome _ "/home/something/else/stai" (some homeDir) none rfl
    (by decide), by decide⟩

/-! ## Empty executable flag -/

/-- C18: with the executable flag given the empty string, `RunCli` returns what it
returns with the flag omitted; in a run without the help flag and with a
positional token it then calls the home-directory lookup: a nil lookup panics, a
lookup error `E` is returned, and after a lookup returning `H` the result is
that of the executable check on `H + "/" + "stai-blockchain/venv/bin/stai"`. -/
theorem RunCli_empty_flag_as_omitted (env : Env) (c : CommandLine) :
    RunCli env (.parsed { c with staiExec := some "" })
      = RunCli env (.parsed { c with staiExec := none }) ∧
    (c.help = false → 1 ≤ c.positional.length →
      (env.getUserHomeDir = none →
        RunCli env (.parsed { c with staiExec := some "" }) = .panic) ∧
      (∀ f s E, env.getUserHomeDir = some f → f () = (s, some E) →
        RunCli env (.parsed { c with staiExec := some "" }) = .ret (none, some E)) ∧
      (∀ f H ctx, env.getUserHomeDir = some f → f () = (H, none) →
        RunCli env (.parsed { c with staiExec := some "" }) = .ret (some ctx, none) →
        ctx.StaiExecutable = H ++ "/" ++ "stai-blockchain/venv/bin/stai" ∧
        ∃ enforce, env.enforceStaiExecutable = some enforce ∧
          enforce (H ++ "/" ++ "stai-blockchain/venv/bin/stai") = .ret none)) := by
  constructor
  · simp [RunCli, appRun, bindFlags, action]
  · intro hhelp hpos
    refine ⟨?_, ?_, ?_⟩
    · intro hhome
      exact RunCli_lookup_nil env { c with staiExec := some "" } hhelp hpos rfl hhome
    · intro f s E hhome hf
      exact RunCli_lookup_failed env { c with staiExec := some "" } f s E hhelp hpos rfl
        hhome hf
    · intro f H ctx hhome hf h
      obtain ⟨-, -, -, -, -, hexe, enforce, henf, hok⟩ :=
        RunCli_success_inv env { c with staiExec := some "" } ctx hhelp h
      simp only [Option.getD_some, if_true] at hexe
      obtain ⟨g, K, hg, hgK, hctx⟩ := hexe
      rw [hhome] at hg
      injection hg with hg
      subst hg
      rw [hf] at hgK
      injection hgK with hK _
      subst hK
      rw [hctx] at hok
      exact ⟨hctx, enforce, henf, hok⟩

/-- The arguments `-e "" mars`: the default path under the home directory is
used, and a failing lookup fails the run. -/
theorem RunCli_empty_flag_as_omitted_witness :
    RunCliArgs envHome strconvStub ["stai-bouncer", "-e", "", "mars"]
      = RunCliArgs envHome strconvStub ["stai-bouncer", "mars"] ∧
    RunCliArgs envHome strconvStub ["stai-bouncer", "-e", "", "mars"]
      = .ret (some { StaiExecutable := "/home/steffen/stai-blockchain/venv/bin/stai",
                     Location := "mars", IsDownThreshold := false,
                     DownThreshold := Float64.zero, Done := false }, none) ∧
    RunCli envNoHome (.parsed { staiExec := some "", downThreshold := none, help := false,
                                positional := ["mars"] })
      = .ret (none, some (errorsNew "no home dir")) :=
  ⟨by decide, by decide,
    ((RunCli_empty_flag_as_omitted envNoHome
      { staiExec := none, downThreshold := none, help := false, positional := ["mars"] }).2
      rfl (by decide)).2.1 noHomeDir "" (errorsNew "no home dir") rfl rfl⟩

/-! ## Auxiliary lemmas on the flag set -/

/-- An argument that does not start with a minus sign is not a flag. -/
theorem flagToken_nonFlag (t : String) (ht : t.data.head? ≠ some '-') :
    flagToken t = .nonFlag := by
  unfold flagToken
  rcases hd : t.data with _ | ⟨c0, _ | ⟨c1, rest⟩⟩
  · rfl
  · rfl
  · rw [hd] at ht
    have hc : c0 ≠ '-' := by
      intro h
      apply ht
      rw [h]
      rfl
    simp [hc]

/-- The argument `-e` is the flag `e` without a value. -/
theorem flagToken_e : flagToken "-e" = .flag "e" none := by decide

/-- The argument `-d` is the flag `d` without a value. -/
theorem flagToken_d : flagToken "-d" = .flag "d" none := by decide

/-- The flag set stops at an argument that is not a flag. -/
theorem flagSetParse_nonFlag (lib : Strconv) (st : FlagSet) (t : String)
    (ts : List String) (ht : t.data.head? ≠ some '-') :
    flagSetParse lib st (t :: ts) = (st, t :: ts, none) := by
  rw [flagSetParse]
  simp [parseOne, flagToken_nonFlag t ht]

/-- The flag set reading `-e` and its value. -/
theorem flagSetParse_e (lib : Strconv) (st : FlagSet) (v : String) (rest : List String) :
    flagSetParse lib st ("-e" :: v :: rest)
      = flagSetParse lib { st with staiExec := some v, actual := "e" :: st.actual } rest := by
  rw [flagSetParse]
  simp [parseOne, flagToken_e]

/-- The flag set reading `-d` and a value that parses. -/
theorem flagSetParse_d_ok (lib : Strconv) (st : FlagSet) (v : String) (x : Float64)
    (rest : List String) (hx : lib.ParseFloat v = .ok x) :
    flagSetParse lib st ("-d" :: v :: rest)
      = flagSetParse lib { st with downThreshold := some x, actual := "d" :: st.actual }
          rest := by
  rw [flagSetParse]
  simp [parseOne, flagToken_d, hx]

/-- The flag set reading `-d` and a value that does not parse. -/
theorem flagSetParse_d_error (lib : Strconv) (st : FlagSet) (v e : String)
    (rest : List String) (hx : lib.ParseFloat v = .error e) :
    (flagSetParse lib st ("-d" :: v :: rest)).2.2 ≠ none := by
  rw [flagSetParse]
  simp [parseOne, flagToken_d, hx]

/-- The flag set reading flags `-e` and `-d` followed by tokens of which the
first does not start with a minus sign: if there is no error, the tokens are
what is left over, the help flag is untouched, and only the names `e` and `d`
are added to the flags seen. -/
theorem flagSetParse_flagArgs (lib : Strconv) (t : String) (ts : List String)
    (ht : t.data.head? ≠ some '-') (fl : List FlagArg) :
    ∀ st : FlagSet, (flagSetParse lib st (flagArgs fl ++ t :: ts)).2.2 = none →
      (flagSetParse lib st (flagArgs fl ++ t :: ts)).2.1 = t :: ts ∧
      (flagSetParse lib st (flagArgs fl ++ t :: ts)).1.help = st.help ∧
      ∀ n ∈ (flagSetParse lib st (flagArgs fl ++ t :: ts)).1.actual,
        n ∈ st.actual ∨ n = "e" ∨ n = "d" := by
  induction fl with
  | nil =>
    intro st _
    simp only [flagArgs, List.nil_append, flagSetParse_nonFlag lib st t ts ht]
    exact ⟨trivial, trivial, fun n hn => Or.inl hn⟩
  | cons a fl ih =>
    intro st herr
    cases a with
    | e v =>
      simp only [flagArgs, FlagArg.args, List.cons_append, List.nil_append,
        flagSetParse_e] at herr ⊢
      obtain ⟨h1, h2, h3⟩ := ih _ herr
      refine ⟨h1, h2, ?_⟩
      intro n hn
      rcases h3 n hn with h | h | h
      · simp only [List.mem_cons] at h
        rcases h with h | h
        · exact Or.inr (Or.inl h)
        · exact Or.inl h
      · exact Or.inr (Or.inl h)
      · exact Or.inr (Or.inr h)
    | d v =>
      simp only [flagArgs, FlagArg.args, List.cons_append, List.nil_append] at herr ⊢
      rcases hx : lib.ParseFloat v with e | x
      · exact absurd herr (flagSetParse_d_error lib st v e _ hx)
      · rw [flagSetParse_d_ok lib st v x _ hx] at herr ⊢
        obtain ⟨h1, h2, h3⟩ := ih _ herr
        refine ⟨h1, h2, ?_⟩
        intro n hn
        rcases h3 n hn with h | h | h
        · simp only [List.mem_cons] at h
          rcases h with h | h
          · exact Or.inr (Or.inr h)
          · exact Or.inl h
        · exact Or.inr (Or.inl h)
        · exact Or.inr (Or.inr h)

/-- Flags seen under the names `e` and `d` only are not seen in two forms. -/
theorem normalizeFlags_short (actual : List String)
    (h : ∀ n ∈ actual, n = "e" ∨ n = "d") : normalizeFlags actual = none := by
  have h1 : "stai-exec" ∉ actual := by
    intro hm
    rcases h _ hm with h | h <;> exact absurd h (by decide)
  have h2 : "down-threshold" ∉ actual := by
    intro hm
    rcases h _ hm with h | h <;> exact absurd h (by decide)
  have h3 : "help" ∉ actual := by
    intro hm
    rcases h _ hm with h | h <;> exact absurd h (by decide)
  simp [normalizeFlags, h1, h2, h3]

/-- The argument vector made of the program name, flags `-e` and `-d` in any
order, and then tokens of which the first does not start with a minus sign and
the last is not the completion argument: the library rejects it, or it parses
it with exactly these tokens as positional tokens and without the help flag. -/
theorem appParse_flagArgs (lib : Strconv) (prog t : String) (ts : List String)
    (fl : List FlagArg) (ht : t.data.head? ≠ some '-')
    (hlast : (t :: ts).getLast? ≠ some completionFlag) :
    (∃ err, appParse lib (prog :: (flagArgs fl ++ t :: ts)) = .ret (.usageError err)) ∨
    (∃ c, appParse lib (prog :: (flagArgs fl ++ t :: ts)) = .ret (.parsed c) ∧
      c.positional = t :: ts ∧ c.help = false) := by
  have hl : (prog :: (flagArgs fl ++ t :: ts)).getLast? ≠ some completionFlag := by
    have hsame : (prog :: (flagArgs fl ++ t :: ts)).getLast? = (t :: ts).getLast? := by
      rw [← List.cons_append]
      exact List.getLast?_append_of_ne_nil _ (List.cons_ne_nil t ts)
    rw [hsame]
    exact hlast
  have hdec : decide ((prog :: (flagArgs fl ++ t :: ts)).getLast? = some completionFlag)
      = false := decide_eq_false hl
  rcases hp : flagSetParse lib {} (flagArgs fl ++ t :: ts) with ⟨st, rest, err⟩
  cases err with
  | some e =>
    left
    have hnorm : normalizeFlags st.actual = none ∨ ∃ ne, normalizeFlags st.actual = some ne := by
      cases normalizeFlags st.actual with
      | none => exact Or.inl rfl
      | some ne => exact Or.inr ⟨ne, rfl⟩
    rcases hnorm with hn | ⟨ne, hn⟩
    · exact ⟨e, by simp [appParse, hdec, hp, hn]⟩
    · exact ⟨ne, by simp [appParse, hdec, hp, hn]⟩
  | none =>
    right
    have hnone : (flagSetParse lib {} (flagArgs fl ++ t :: ts)).2.2 = none := by rw [hp]
    obtain ⟨h1, h2, h3⟩ := flagSetParse_flagArgs lib t ts ht fl {} hnone
    rw [hp] at h1 h2 h3
    simp only at h1 h2 h3
    have hn : normalizeFlags st.actual = none := by
      apply normalizeFlags_short
      intro n hm
      rcases h3 n hm with h | h | h
      · simp at h
      · exact Or.inl h
      · exact Or.inr h
    refine ⟨{ staiExec := st.staiExec, downThreshold := st.downThreshold, help := st.help,
              positional := rest }, by simp [appParse, hdec, hp, hn], h1, h2⟩

/-! ## Position of the flags -/

/-- C13, as stated, fails: with the flag `-e` written after the positional token
`mars`, flag parsing has already stopped, the flag and its value are positional
tokens, and `Location` is not the `Location` of the run with the flag written
before the token. -/
theorem RunCliArgs_flag_after_location_counterexample :
    RunCliArgs envHome strconvStub ["stai-bouncer", "-e", "/home/something/else/stai", "mars"]
      = .ret (some { StaiExecutable := "/home/something/else/stai", Location := "mars",
                     IsDownThreshold := false, DownThreshold := Float64.zero,
                     Done := false }, none) ∧
    RunCliArgs envHome strconvStub ["stai-bouncer", "mars", "-e", "/home/something/else/stai"]
      = .ret (some { StaiExecutable := "/home/steffen/stai-blockchain/venv/bin/stai",
                     Location := "mars -e /home/something/else/stai",
                     IsDownThreshold := false, DownThreshold := Float64.zero,
                     Done := false }, none) ∧
    "mars -e /home/something/else/stai" ≠ "mars" := by
  decide

/-- C13, amended: for flags `-e` and `-d` written in any order before the
positional tokens, of which the first does not start with a minus sign and the
last is not the completion argument, a successful resolution has as `Location`
the tokens joined with single spaces and trimmed, whatever the flags are; it
neither starts nor ends with a white-space character. -/
theorem RunCliArgs_flags_before_location (env : Env) (lib : Strconv) (prog t : String)
    (ts : List String) (fl : List FlagArg) (ctx : Context)
    (ht : t.data.head? ≠ some '-')
    (hlast : (t :: ts).getLast? ≠ some completionFlag)
    (h : RunCliArgs env lib (prog :: (flagArgs fl ++ t :: ts)) = .ret (some ctx, none)) :
    ctx.Location = TrimSpace (Join (t :: ts) " ") ∧
    (∀ ch, ctx.Location.data.head? = some ch → IsSpace ch = false) ∧
    (∀ ch, ctx.Location.data.getLast? = some ch → IsSpace ch = false) := by
  have hloc : ctx.Location = TrimSpace (Join (t :: ts) " ") := by
    rcases appParse_flagArgs lib prog t ts fl ht hlast with ⟨err, hp⟩ | ⟨c, hp, hpos, hhelp⟩
    · simp [RunCliArgs, hp, RunCli, appRun] at h
    · simp only [RunCliArgs, hp] at h
      obtain ⟨-, -, hl, -⟩ := RunCli_success_inv env c ctx hhelp h
      rw [hl, hpos]
  refine ⟨hloc, ?_, ?_⟩
  · intro ch hch
    rw [hloc] at hch
    exact TrimSpace_head _ ch hch
  · intro ch hch
    rw [hloc] at hch
    exact TrimSpace_getLast _ ch hch

/-- The flags `-d 0.2 -e /x` before the tokens `elon on mars`; the run with the
flags in the other order has the same `Location`. -/
theorem RunCliArgs_flags_before_location_witness :
    RunCliArgs envHome strconvStub
        ("stai-bouncer" :: (flagArgs [.d "0.2", .e "/x"] ++ "elon" :: ["on", "mars"]))
      = .ret (some { StaiExecutable := "/x", Location := "elon on mars",
                     IsDownThreshold := true,
                     DownThreshold := { bits := 0x3FC999999999999A },
                     Done := false }, none) ∧
    RunCliArgs envHome strconvStub
        ("stai-bouncer" :: (flagArgs [.e "/x", .d "0.2"] ++ "elon" :: ["on", "mars"]))
      = .ret (some { StaiExecutable := "/x", Location := "elon on mars",
                     IsDownThreshold := true,
                     DownThreshold := { bits := 0x3FC999999999999A },
                     Done := false }, none) ∧
    "elon on mars" = TrimSpace (Join ("elon" :: ["on", "mars"]) " ") :=
  ⟨by decide, by decide,
    (RunCliArgs_flags_before_location envHome strconvStub "stai-bouncer" "elon"
      ["on", "mars"] [.d "0.2", .e "/x"]
      { StaiExecutable := "/x", Location := "elon on mars", IsDownThreshold := true,
        DownThreshold := { bits := 0x3FC999999999999A }, Done := false }
      (by decide) (by decide) (by decide)).1⟩

/-! ## Version flag -/

/-- C14 does not hold of the code: `RunCli` registers no version flag (the `App`
has no `Version`, and `done` is the destination of the help flag alone), so the
arguments `--version` and `-v` are rejected as flags that are not defined, for
every environment. -/
theorem RunCliArgs_version_flag (env : Env) (lib : Strconv) :
    RunCliArgs env lib ["stai-bouncer", "--version"]
      = .ret (none, some (errorsNew "flag provided but not defined: -version")) ∧
    RunCliArgs env lib ["stai-bouncer", "-v"]
      = .ret (none, some (errorsNew "flag provided but not defined: -v")) := by
  constructor <;> rfl

/-! ## Auxiliary lemmas on `RunCli` over the argument vector -/

/-- A completion request returns nil without running the `Action`: the `Context`
holds the flag destinations, and `Location` and `IsDownThreshold` keep their zero
values. -/
theorem RunCli_completion (env : Env) (c : CommandLine) :
    RunCli env (.completion c) =
      .ret (some { StaiExecutable := c.staiExec.getD ""
                   Location := ""
                   IsDownThreshold := false
                   DownThreshold := c.downThreshold.getD Float64.zero
                   Done := c.help }, none) := by
  simp [RunCli, appRun, bindFlags]

/-- A usage error of the library is returned with a nil `Context`. -/
theorem RunCli_usageError (env : Env) (err : GoError) :
    RunCli env (.usageError err) = .ret (none, some err) := by
  simp [RunCli, appRun]

/-- The function `RunCli` on an argument vector is `RunCli` on what the library
makes of the vector. -/
theorem RunCliArgs_of_appParse (env : Env) (lib : Strconv) (args : List String)
    (p : ParseResult) (h : appParse lib args = .ret p) :
    RunCliArgs env lib args = RunCli env p := by
  simp [RunCliArgs, h]

/-- The flag set reading flags `-e` and `-d` whose numerals parse, with nothing
after them: there is no error, nothing is left over, the help flag is untouched,
and only the names `e` and `d` are added to the flags seen. -/
theorem flagSetParse_flagArgs_nil (lib : Strconv) (fl : List FlagArg) :
    (∀ v, FlagArg.d v ∈ fl → ∃ x, lib.ParseFloat v = .ok x) →
    ∀ st : FlagSet, ∃ st1, flagSetParse lib st (flagArgs fl) = (st1, [], none) ∧
      st1.help = st.help ∧ ∀ n ∈ st1.actual, n ∈ st.actual ∨ n = "e" ∨ n = "d" := by
  induction fl with
  | nil =>
    intro _ st
    refine ⟨st, ?_, rfl, fun n hn => Or.inl hn⟩
    rw [flagArgs, flagSetParse]
  | cons a fl ih =>
    intro hok st
    have hok2 : ∀ v, FlagArg.d v ∈ fl → ∃ x, lib.ParseFloat v = .ok x :=
      fun v hv => hok v (List.mem_cons_of_mem _ hv)
    cases a with
    | e v =>
      obtain ⟨st1, h1, h2, h3⟩ :=
        ih hok2 { st with staiExec := some v, actual := "e" :: st.actual }
      refine ⟨st1, ?_, h2, ?_⟩
      · simp only [flagArgs, FlagArg.args, List.cons_append, List.nil_append, flagSetParse_e]
        exact h1
      · intro n hn
        rcases h3 n hn with h | h | h
        · simp only [List.mem_cons] at h
          rcases h with h | h
          · exact Or.inr (Or.inl h)
          · exact Or.inl h
        · exact Or.inr (Or.inl h)
        · exact Or.inr (Or.inr h)
    | d v =>
      obtain ⟨x, hx⟩ := hok v (List.mem_cons_self _ _)
      obtain ⟨st1, h1, h2, h3⟩ :=
        ih hok2 { st with downThreshold := some x, actual := "d" :: st.actual }
      refine ⟨st1, ?_, h2, ?_⟩
      · simp only [flagArgs, FlagArg.args, List.cons_append, List.nil_append]
        rw [flagSetParse_d_ok lib st v x _ hx]
        exact h1
      · intro n hn
        rcases h3 n hn with h | h | h
        · simp only [List.mem_cons] at h
          rcases h with h | h
          · exact Or.inr (Or.inr h)
          · exact Or.inl h
        · exact Or.inr (Or.inl h)
        · exact Or.inr (Or.inr h)

/-- The argument vector made of the program name and flags `-e` and `-d` whose
numerals parse, not ending in the completion argument: the library parses it
with no positional token and without the help flag. -/
theorem appParse_flagArgs_nil (lib : Strconv) (prog : String) (fl : List FlagArg)
    (hok : ∀ v, FlagArg.d v ∈ fl → ∃ x, lib.ParseFloat v = .ok x)
    (hlast : (prog :: flagArgs fl).getLast? ≠ some completionFlag) :
    ∃ c, appParse lib (prog :: flagArgs fl) = .ret (.parsed c) ∧
      c.positional = [] ∧ c.help = false := by
  have hdec : decide ((prog :: flagArgs fl).getLast? = some completionFlag) = false :=
    decide_eq_false hlast
  obtain ⟨st, hp, h2, h3⟩ := flagSetParse_flagArgs_nil lib fl hok {}
  have hn : normalizeFlags st.actual = none := by
    apply normalizeFlags_short
    intro n hm
    rcases h3 n hm with h | h | h
    · simp at h
    · exact Or.inl h
    · exact Or.inr h
  exact ⟨{ staiExec := st.staiExec, downThreshold := st.downThreshold, help := st.help,
           positional := [] }, by simp [appParse, hdec, hp, hn], rfl, h2⟩

/-! ## Missing location, over the argument vector -/

/-- C1, as stated, fails: of the argument vectors with no positional token and no
help flag, the one with a dangling `-e` and the one with an undefined flag
return the library's usage error, the completion request returns a `Context`
and no error, and the empty vector panics; none returns "LOCATION is missing". -/
theorem RunCliArgs_no_token_counterexample :
    RunCliArgs envNil strconvStub ["stai-bouncer", "-e"]
      = .ret (none, some (errorsNew "flag needs an argument: -e")) ∧
    RunCliArgs envNil strconvStub ["stai-bouncer", "-x"]
      = .ret (none, some (errorsNew "flag provided but not defined: -x")) ∧
    RunCliArgs envNil strconvStub ["stai-bouncer", "--generate-bash-completion"]
      = .ret (some { StaiExecutable := "", Location := "", IsDownThreshold := false,
                     DownThreshold := Float64.zero, Done := false }, none) ∧
    RunCliArgs envNil strconvStub [] = .panic := by
  decide

/-- C1, amended: for every argument vector that the library parses (no usage
error, no completion request) into a command line with no positional token and no
help flag, `RunCli` returns the error "LOCATION is missing", whatever the package
variables for the home-directory lookup and the executable check hold (nil
included). Such are the vectors made of the program name and flags `-e` and `-d`
whose numerals parse, in any order, not ending in the completion argument. -/
theorem RunCliArgs_location_missing (env : Env) (lib : Strconv) :
    (∀ args c, appParse lib args = .ret (.parsed c) → c.help = false →
      c.positional = [] →
      RunCliArgs env lib args = .ret (none, some (errorsNew "LOCATION is missing"))) ∧
    (∀ prog fl, (∀ v, FlagArg.d v ∈ fl → ∃ x, lib.ParseFloat v = .ok x) →
      (prog :: flagArgs fl).getLast? ≠ some completionFlag →
      RunCliArgs env lib (prog :: flagArgs fl)
        = .ret (none, some (errorsNew "LOCATION is missing"))) := by
  constructor
  · intro args c hparse hhelp hpos
    rw [RunCliArgs_of_appParse env lib args _ hparse]
    exact RunCli_location_missing env c hhelp hpos
  · intro prog fl hok hlast
    obtain ⟨c, hparse, hpos, hhelp⟩ := appParse_flagArgs_nil lib prog fl hok hlast
    rw [RunCliArgs_of_appParse env lib _ _ hparse]
    exact RunCli_location_missing env c hhelp hpos

/-- Case "nok with no location" of `Test_run`, both lookups being nil; and the
same with the flags `-e /x -d 0.2`. -/
theorem RunCliArgs_location_missing_witness :
    RunCliArgs envNil strconvStub ["stai-bouncer"]
      = .ret (none, some (errorsNew "LOCATION is missing")) ∧
    RunCliArgs envNil strconvStub ("stai-bouncer" :: flagArgs [.e "/x", .d "0.2"])
      = .ret (none, some (errorsNew "LOCATION is missing")) :=
  ⟨(RunCliArgs_location_missing envNil strconvStub).2 "stai-bouncer" []
      (by intro v hv; cases hv) (by decide),
   (RunCliArgs_location_missing envNil strconvStub).2 "stai-bouncer" [.e "/x", .d "0.2"]
      (by
        intro v hv
        simp only [List.mem_cons, List.mem_singleton, FlagArg.d.injEq, List.not_mem_nil,
          or_false, false_or, reduceCtorEq] at hv
        subst hv
        exact ⟨{ bits := 0x3FC999999999999A }, rfl⟩)
      (by decide)⟩

/-! ## Location, over the argument vector -/

/-- C2, as stated, fails: the completion request after the token `mars` is a
successful resolution that is not an early exit, and its `Location` is empty, not
the token. -/
theorem RunCliArgs_completion_location_counterexample :
    RunCliArgs envHome strconvStub ["stai-bouncer", "mars", "--generate-bash-completion"]
      = .ret (some { StaiExecutable := "", Location := "", IsDownThreshold := false,
                     DownThreshold := Float64.zero, Done := false }, none) ∧
    "" ≠ TrimSpace (Join ["mars"] " ") := by
  decide

/-- C2, amended: after every successful resolution, `Location` neither starts nor
ends with a white-space character; and when the library parsed the argument
vector (it is not a completion request) and the resolution is not an early exit,
there is at least one positional token and `Location` is `TrimSpace` of the
positional tokens joined with single spaces. -/
theorem RunCliArgs_location_joined_trimmed (env : Env) (lib : Strconv)
    (args : List String) (ctx : Context)
    (h : RunCliArgs env lib args = .ret (some ctx, none)) :
    (∀ c, appParse lib args = .ret (.parsed c) → ctx.Done = false →
      1 ≤ c.positional.length ∧ ctx.Location = TrimSpace (Join c.positional " ")) ∧
    (∀ ch, ctx.Location.data.head? = some ch → IsSpace ch = false) ∧
    (∀ ch, ctx.Location.data.getLast? = some ch → IsSpace ch = false) := by
  have hempty : ctx.Location = "" →
      (∀ ch, ctx.Location.data.head? = some ch → IsSpace ch = false) ∧
      (∀ ch, ctx.Location.data.getLast? = some ch → IsSpace ch = false) := by
    intro he
    rw [he]
    constructor <;> intro ch hch <;> simp at hch
  rcases hp : appParse lib args with p | _
  · rw [RunCliArgs_of_appParse env lib args p hp] at h
    cases p with
    | usageError err =>
      rw [RunCli_usageError] at h
      cases h
    | parsed c =>
      refine ⟨?_, ?_⟩
      · intro c2 hc2 hdone
        injection hc2 with hc2
        injection hc2 with hc2
        subst hc2
        obtain ⟨h1, h2, -⟩ := RunCli_location_joined_trimmed env c ctx h hdone
        exact ⟨h1, h2⟩
      · cases hdone : ctx.Done with
        | false =>
          obtain ⟨-, -, h3, h4⟩ := RunCli_location_joined_trimmed env c ctx h hdone
          exact ⟨h3, h4⟩
        | true =>
          apply hempty
          cases hhelp : c.help with
          | false =>
            obtain ⟨-, hd, -⟩ := RunCli_success_inv env c ctx hhelp h
            rw [hd] at hdone
            cases hdone
          | true =>
            rw [RunCli_help env c hhelp] at h
            injection h with h
            injection h with h _
            injection h with h
            subst h
            rfl
    | completion c =>
      rw [RunCli_completion] at h
      injection h with h
      injection h with h _
      injection h with h
      subst h
      refine ⟨?_, hempty rfl⟩
      intro c2 hc2
      cases hc2
  · simp [RunCliArgs, hp] at h

/-- A custom executable and three tokens with surrounding blanks: `Location` is
"elon on mars". -/
theorem RunCliArgs_location_joined_trimmed_witness :
    RunCliArgs envHome strconvStub
        ["stai-bouncer", "-e", "/home/something/else/stai", " elon", "on", "mars\t "]
      = .ret (some { StaiExecutable := "/home/something/else/stai",
                     Location := "elon on mars", IsDownThreshold := false,
                     DownThreshold := Float64.zero, Done := false }, none) ∧
    1 ≤ [" elon", "on", "mars\t "].length ∧
    "elon on mars" = TrimSpace (Join [" elon", "on", "mars\t "] " ") :=
  ⟨by decide,
    (RunCliArgs_location_joined_trimmed envHome strconvStub
      ["stai-bouncer", "-e", "/home/something/else/stai", " elon", "on", "mars\t "]
      { StaiExecutable := "/home/something/else/stai", Location := "elon on mars",
        IsDownThreshold := false, DownThreshold := Float64.zero, Done := false }
      (by decide)).1
      { staiExec := some "/home/something/else/stai", downThreshold := none, help := false,
        positional := [" elon", "on", "mars\t "] }
      rfl rfl⟩

/-! ## Down threshold, over the argument vector -/

/-- C6 does not hold of the code: on a completion request the library writes the
value of `-d` to `downThreshold` but skips the `Action`, the only place where
`isDownThreshold` is set; the resolution succeeds, is not an early exit, and has
`DownThreshold` equal to `0.2` with `IsDownThreshold` false, for every
environment. -/
theorem RunCliArgs_completion_down_threshold (env : Env) :
    RunCliArgs env strconvStub
        ["stai-bouncer", "-d", "0.2", "mars", "--generate-bash-completion"]
      = .ret (some { StaiExecutable := "", Location := "", IsDownThreshold := false,
                     DownThreshold := { bits := 0x3FC999999999999A },
                     Done := false }, none) := by
  rfl

/-! ## Help flag, over the argument vector -/

/-- C11, as stated, fails: with the help flag present, the library rejects the
vector that gives it in both forms and the vector that has an undefined flag
after it, and `RunCli` returns that error; and the help flag given the value
`false` does not end the run, which fails for the missing location. -/
theorem RunCliArgs_help_counterexample :
    RunCliArgs envHome strconvStub ["stai-bouncer", "-h", "--help"]
      = .ret (none, some (errorsNew "Cannot use two forms of the same flag: h help")) ∧
    RunCliArgs envHome strconvStub ["stai-bouncer", "-h", "-x"]
      = .ret (none, some (errorsNew "flag provided but not defined: -x")) ∧
    RunCliArgs envHome strconvStub ["stai-bouncer", "-h=false"]
      = .ret (none, some (errorsNew "LOCATION is missing")) := by
  decide

/-- C11, amended: for every argument vector that the library parses (no usage
error) into a command line with the help flag set and no positional token,
`RunCli` returns no error and a `Context` with `Done` true, whatever the package
variables for the home-directory lookup and the executable check hold (nil
included): neither is called. Such are the program name followed by `-h` alone
or by `--help` alone. -/
theorem RunCliArgs_help_early_exit (env : Env) (lib : Strconv) :
    (∀ args c, appParse lib args = .ret (.parsed c) → c.help = true →
      c.positional = [] →
      ∃ ctx, RunCliArgs env lib args = .ret (some ctx, none) ∧ ctx.Done = true) ∧
    (∀ prog,
      RunCliArgs env lib [prog, "-h"]
        = .ret (some { StaiExecutable := "", Location := "", IsDownThreshold := false,
                       DownThreshold := Float64.zero, Done := true }, none) ∧
      RunCliArgs env lib [prog, "--help"]
        = .ret (some { StaiExecutable := "", Location := "", IsDownThreshold := false,
                       DownThreshold := Float64.zero, Done := true }, none)) := by
  constructor
  · intro args c hparse hhelp _
    rw [RunCliArgs_of_appParse env lib args _ hparse]
    exact ⟨_, RunCli_help env c hhelp, rfl⟩
  · intro prog
    constructor <;> rfl

/-- The arguments `-e /x -h`, every package variable being nil. -/
theorem RunCliArgs_help_early_exit_witness :
    ∃ ctx, RunCliArgs envNil strconvStub ["stai-bouncer", "-e", "/x", "-h"]
        = .ret (some ctx, none) ∧ ctx.Done = true :=
  (RunCliArgs_help_early_exit envNil strconvStub).1
    ["stai-bouncer", "-e", "/x", "-h"]
    { staiExec := some "/x", downThreshold := none, help := true, positional := [] }
    rfl rfl rfl

/-! ## Success and failure, over the argument vector -/

/-- C16, as stated, fails: the completion request after the token `mars` has no
help flag and a positional token, and `RunCli` succeeds although the
home-directory lookup and the executable check are both nil. -/
theorem RunCliArgs_completion_succeeds_counterexample :
    RunCliArgs envNil strconvStub ["stai-bouncer", "mars", "--generate-bash-completion"]
      = .ret (some { StaiExecutable := "", Location := "", IsDownThreshold := false,
                     DownThreshold := Float64.zero, Done := false }, none) ∧
    envNil.getUserHomeDir = none ∧ envNil.enforceStaiExecutable = none :=
  ⟨by decide, rfl, rfl⟩

/-- C16, amended: for every argument vector that the library parses (no usage
error, no completion request) into a command line without the help flag and with
a positional token, `RunCli` succeeds if and only if the executable resolves to
some `P` (the flag value is non-empty, or the home-directory lookup succeeds) and
the executable check accepts `P`; and an error it returns is the error of the
home-directory lookup or the error of the executable check on the resolved
path. -/
theorem RunCliArgs_succeeds_iff (env : Env) (lib : Strconv) (args : List String)
    (c : CommandLine) (hparse : appParse lib args = .ret (.parsed c))
    (hhelp : c.help = false) (hpos : 1 ≤ c.positional.length) :
    ((∃ ctx, RunCliArgs env lib args = .ret (some ctx, none)) ↔
      ∃ P, ((c.staiExec.getD "" ≠ "" ∧ P = c.staiExec.getD "") ∨
          (c.staiExec.getD "" = "" ∧ ∃ f H, env.getUserHomeDir = some f ∧
            f () = (H, none) ∧ P = H ++ "/" ++ "stai-blockchain/venv/bin/stai")) ∧
        ∃ enforce, env.enforceStaiExecutable = some enforce ∧ enforce P = .ret none) ∧
    (∀ err, RunCliArgs env lib args = .ret (none, some err) →
      (c.staiExec.getD "" = "" ∧
        ∃ f s, env.getUserHomeDir = some f ∧ f () = (s, some err)) ∨
      (∃ P, ((c.staiExec.getD "" ≠ "" ∧ P = c.staiExec.getD "") ∨
          (c.staiExec.getD "" = "" ∧ ∃ f H, env.getUserHomeDir = some f ∧
            f () = (H, none) ∧ P = H ++ "/" ++ "stai-blockchain/venv/bin/stai")) ∧
        ∃ enforce, env.enforceStaiExecutable = some enforce ∧
          enforce P = .ret (some err))) := by
  rw [RunCliArgs_of_appParse env lib args _ hparse]
  exact RunCli_succeeds_iff env c hhelp hpos

/-- The case "ok with custom stai" of `Test_run` succeeds, by the right-to-left
direction. -/
theorem RunCliArgs_succeeds_iff_witness :
    ∃ ctx, RunCliArgs envHome strconvStub
        ["stai-bouncer", "-e", "/home/something/else/stai", "elon on mars"]
      = .ret (some ctx, none) :=
  (RunCliArgs_succeeds_iff envHome strconvStub
    ["stai-bouncer", "-e", "/home/something/else/stai", "elon on mars"]
    { staiExec := some "/home/something/else/stai", downThreshold := none, help := false,
      positional := ["elon on mars"] } rfl rfl (by decide)).1.2
    ⟨"/home/something/else/stai", Or.inl ⟨by decide, rfl⟩, exists_, rfl, rfl⟩

end Bouncer
